import Mathlib

/-!
# Transcript extraction and entity-resolution pipeline — verification

A shallow embedding of the intake transcript pipeline
(`service/intake/services/transcript_parser.py` and the models/views it relies
on), together with theorems settling the specification claims about it.

Conventions used throughout the embedding:
* Python strings are Lean `String`s; the Python string operations used by the
  code (`.strip()`, `.lower()`, slicing, `.split`, substring tests) are
  re-implemented over `List Char` so that they evaluate by kernel reduction.
* Database rows are records in in-memory lists; primary keys and
  `created_at` timestamps are modelled by one monotone `Nat` allocator, so a
  later-created row always has a larger `createdAt`.
* Calendar dates are day numbers (`Int`); `datetime.date.fromisoformat` is an
  external standard-library collaborator and is passed in as a parameter
  `pd : String → Option Int` (`none` models a `ValueError`).
* Fallible storage writes for citations are modelled by failure predicates;
  an uncaught Python exception is an explicit `failed` outcome carrying the
  database state at the moment it was raised.
-/

namespace Intake

/-! ## Python string primitives -/

/-- The whitespace set of Python's `str.strip()` (ASCII part). -/
def isPyWs (c : Char) : Bool :=
  c = ' ' || c = '\t' || c = '\n' || c = '\r' || c = '\x0b' || c = '\x0c'

/-- Model of `str.strip()` on a character list. -/
def stripChars (cs : List Char) : List Char :=
  ((cs.dropWhile isPyWs).reverse.dropWhile isPyWs).reverse

/-- Python `s.strip()`. -/
def pyStrip (s : String) : String :=
  String.mk (stripChars s.data)

/-- Python `s.lower()` (ASCII case fold, which is all the pipeline needs). -/
def pyLower (s : String) : String :=
  String.mk (s.data.map Char.toLower)

/-- Python `s[:n]` (slicing by code points). -/
def pyTake (n : Nat) (s : String) : String :=
  String.mk (s.data.take n)

/-- True iff `needle` occurs at the start of `hay` (character lists). -/
def startsSeg : List Char → List Char → Bool
  | [], _ => true
  | _ :: _, [] => false
  | a :: as, b :: bs => a = b && startsSeg as bs

/-- True iff `needle` occurs contiguously somewhere in `hay` (the `in` operator on Python strings). -/
def containsSeg (needle hay : List Char) : Bool :=
  match hay with
  | [] => needle.isEmpty
  | _ :: tl => startsSeg needle hay || containsSeg needle tl

/-- Python `needle in hay` on strings. -/
def pyContains (hay needle : String) : Bool :=
  containsSeg needle.data hay.data

/-- Django `icontains` / Python `needle.lower() in hay.lower()`. -/
def pyContainsCI (hay needle : String) : Bool :=
  pyContains (pyLower hay) (pyLower needle)

/-- Split a character list at the first occurrence of `sep`
(Python `s.split(sep, 1)` when a separator is present). -/
def splitOnceChar (sep : Char) : List Char → Option (List Char × List Char)
  | [] => none
  | c :: cs =>
      if c = sep then some ([], cs)
      else (splitOnceChar sep cs).map (fun p => (c :: p.1, p.2))

/-- Split on every occurrence of `sep` (Python `s.split(sep)` for a one-char
separator; used for the comma-separated injuries list). -/
def splitAllChar (sep : Char) : List Char → List (List Char)
  | [] => [[]]
  | c :: cs =>
      let rest := splitAllChar sep cs
      if c = sep then [] :: rest
      else match rest with
        | [] => [[c]]
        | r :: rs => (c :: r) :: rs

/-- Python `s.split(",")` returning strings. -/
def pySplitCommas (s : String) : List String :=
  (splitAllChar ',' s.data).map String.mk

end Intake

/-! ## JSON values and the extraction response post-processing (`_call_llm`) -/

namespace Intake

/-- A parsed JSON value, as produced by `json.loads`. -/
inductive Json where
  | null
  | str (s : String)
  | num (n : Int)
  | bool (b : Bool)
  | arr (items : List Json)
  | obj (members : List (String × Json))

/-- Python `dict.get` on a parsed JSON object.  `json.loads` keeps the last
binding of a duplicated key, so lookup is from the right. -/
def jsonLookup (members : List (String × Json)) (k : String) : Option Json :=
  ((members.filter (fun m => m.1 = k)).getLast?).map (fun m => m.2)

/-- The raw outcome of the external chat-completion call:
either a body that `json.loads` rejects, or a parsed JSON object
(`response_format={"type": "json_object"}` guarantees an object on success). -/
inductive LLMRaw where
  | notJson (raw : String)
  | jsonObj (members : List (String × Json))

/-- The classified errors `_call_llm` raises (each one a `RuntimeError` with a
distinct message in the source). -/
inductive ExtractionError where
  | apiFailure (msg : String)
  | nonJsonResponse (sample : String)
  | missingFindingsList
deriving DecidableEq

/-- Model of `isinstance(f, dict) and f.get("value") is not None` — the filter applied
to each entry of the `findings` list. -/
def isValidFinding (f : Json) : Bool :=
  match f with
  | .obj ms =>
      match jsonLookup ms "value" with
      | none => false
      | some .null => false
      | some _ => true
  | _ => false

/-- Post-processing of the raw extraction response, lines 648–670 of
`transcript_parser.py`:
`json.loads` failure → error (with a 500-character sample);
`findings = parsed.get("findings", [])`; a non-list `findings` → error;
otherwise null-valued findings are dropped. -/
def postProcessResponse : LLMRaw → Except ExtractionError (List Json)
  | .notJson raw => .error (.nonJsonResponse (pyTake 500 raw))
  | .jsonObj ms =>
      let findings := (jsonLookup ms "findings").getD (.arr [])
      match findings with
      | .arr fs => .ok (fs.filter isValidFinding)
      | _ => .error .missingFindingsList

/-! ## The per-invocation extraction cache (`_call_llm`) -/

/-- One transcript turn. -/
structure Turn where
  speaker : String
  text : String
deriving DecidableEq

/-- A turns list together with its Python object identity (`id(turns)`), the
cache key used by `_call_llm`.  Two distinct live list objects always have
distinct `objId`s, even when their contents are equal. -/
structure TurnsObj where
  objId : Nat
  turns : List Turn
deriving DecidableEq

/-- The parser-service state visible to `_call_llm`: the single-slot findings
cache (`self._findings_cache`) plus an instrumentation counter of how many
external API calls were issued. -/
structure LLMState where
  cacheTurnsId : Option Nat := none
  cacheData : List Json := []
  externalCalls : Nat := 0

/-- Model of `TranscriptParserService._call_llm`.  The oracle stands for the OpenAI
chat-completion call (`.error` = an `openai.OpenAIError`).  The API-key
configuration check precedes the call in the source and raises its own
`RuntimeError`; it is not modelled because a configured service is assumed
by every claim about this function. -/
def call_llm (oracle : List Turn → Except String LLMRaw) (t : TurnsObj)
    (s : LLMState) : Except ExtractionError (List Json) × LLMState :=
  if s.cacheTurnsId = some t.objId then
    (.ok s.cacheData, s)
  else if t.turns.isEmpty then
    (.ok [], { s with cacheTurnsId := some t.objId, cacheData := [] })
  else
    match oracle t.turns with
    | .error msg =>
        (.error (.apiFailure msg), { s with externalCalls := s.externalCalls + 1 })
    | .ok raw =>
        match postProcessResponse raw with
        | .error e => (.error e, { s with externalCalls := s.externalCalls + 1 })
        | .ok valid =>
            (.ok valid, { cacheTurnsId := some t.objId, cacheData := valid,
                          externalCalls := s.externalCalls + 1 })

/-- State reached after `n` further `_call_llm` invocations against the same
turns object (what any number of extraction sub-steps do). -/
def repeatCall (oracle : List Turn → Except String LLMRaw) (t : TurnsObj) :
    Nat → LLMState → LLMState
  | 0, s => s
  | n + 1, s => repeatCall oracle t n (call_llm oracle t s).2

end Intake

/-! ## Claims C1 and C4 — extraction-call error handling and memoization -/

namespace Intake

/-- C1: The claim says a parsed response that *lacks* a `findings` list is
rejected with a classified error.  The code (`parsed.get("findings", [])`)
defaults a missing `findings` key to `[]` and returns a successful, empty
extraction — only a *present but non-list* `findings` value, or a non-JSON
body, is rejected.  This theorem evaluates the embedded post-processor at the
failing input (the JSON object `{}`) and, for contrast, at the two inputs the
code does reject. -/
theorem c1_missing_findings_key_treated_as_empty :
    postProcessResponse (.jsonObj []) = .ok [] ∧
    postProcessResponse (.notJson "not valid json") =
      .error (.nonJsonResponse "not valid json") ∧
    postProcessResponse (.jsonObj [("findings", .str "oops")]) =
      .error .missingFindingsList :=
  ⟨rfl, rfl, rfl⟩

/-- C4: Starting from a fresh service (empty cache), one successful
`_call_llm` on a non-empty turns object issues exactly one external call;
every further `_call_llm` against the same turns object is a cache hit that
returns the same findings and leaves the state unchanged (so any number of
classification sub-steps re-use the one call), and a call against a distinct
turns object (different Python identity) always issues a fresh external
call. -/
theorem c4_single_extraction_call_per_turns_object
    (oracle : List Turn → Except String LLMRaw) (t : TurnsObj)
    (s0 : LLMState) (data : List Json) (s1 : LLMState)
    (hne : t.turns ≠ [])
    (hfresh : s0.cacheTurnsId = none)
    (hcall : call_llm oracle t s0 = (.ok data, s1)) :
    s1.externalCalls = s0.externalCalls + 1 ∧
    call_llm oracle t s1 = (.ok data, s1) ∧
    (∀ n, repeatCall oracle t n s1 = s1) ∧
    (∀ t' : TurnsObj, t'.objId ≠ t.objId → t'.turns ≠ [] →
        (call_llm oracle t' s1).2.externalCalls = s1.externalCalls + 1) := by
  have hempty : t.turns.isEmpty = false := by
    cases h : t.turns with
    | nil => exact absurd h hne
    | cons a l => rfl
  unfold call_llm at hcall
  rw [if_neg (by simp [hfresh]), if_neg (by simp [hempty])] at hcall
  rcases ho : oracle t.turns with msg | raw
  · rw [ho] at hcall
    dsimp only at hcall
    simp at hcall
  · rw [ho] at hcall
    dsimp only at hcall
    rcases hp : postProcessResponse raw with e | valid
    · rw [hp] at hcall
      simp at hcall
    · rw [hp] at hcall
      rw [Prod.mk.injEq] at hcall
      obtain ⟨hdata, hs1⟩ := hcall
      rw [Except.ok.injEq] at hdata
      subst hdata
      subst hs1
      refine ⟨rfl, ?_, ?_, ?_⟩
      · unfold call_llm
        rw [if_pos rfl]
      · intro n
        induction n with
        | zero => rfl
        | succ m ih =>
            have hfix : call_llm oracle t
                { cacheTurnsId := some t.objId, cacheData := valid,
                  externalCalls := s0.externalCalls + 1 } =
                (.ok valid,
                 { cacheTurnsId := some t.objId, cacheData := valid,
                   externalCalls := s0.externalCalls + 1 }) := by
              unfold call_llm
              rw [if_pos rfl]
            rw [repeatCall, hfix]
            exact ih
      · intro t' hid hne'
        have hempty' : t'.turns.isEmpty = false := by
          cases h : t'.turns with
          | nil => exact absurd h hne'
          | cons a l => rfl
        unfold call_llm
        rw [if_neg (by simp; intro h; exact hid h.symm), if_neg (by simp [hempty'])]
        split
        · rfl
        · split
          · rfl
          · rfl

/-- Concrete external-call oracle for the C4 witness: a well-formed empty
findings response. -/
def c4Oracle : List Turn → Except String LLMRaw :=
  fun _ => .ok (.jsonObj [("findings", .arr [])])

/-- Concrete non-empty turns object for the C4 witness. -/
def c4Turns : TurnsObj := ⟨1, [⟨"Agent", "hello"⟩]⟩

/-- A second turns object with the same content but a different identity. -/
def c4TurnsB : TurnsObj := ⟨2, [⟨"Agent", "hello"⟩]⟩

/-- Witness for C4 at a concrete oracle, turns object and fresh state. -/
theorem c4_single_extraction_call_witness :
    (⟨some 1, [], 1⟩ : LLMState).externalCalls =
      (⟨none, [], 0⟩ : LLMState).externalCalls + 1 ∧
    call_llm c4Oracle c4Turns ⟨some 1, [], 1⟩ = (.ok [], ⟨some 1, [], 1⟩) ∧
    repeatCall c4Oracle c4Turns 3 ⟨some 1, [], 1⟩ = ⟨some 1, [], 1⟩ ∧
    (call_llm c4Oracle c4TurnsB ⟨some 1, [], 1⟩).2.externalCalls =
      (⟨some 1, [], 1⟩ : LLMState).externalCalls + 1 := by
  obtain ⟨h1, h2, h3, h4⟩ :=
    c4_single_extraction_call_per_turns_object c4Oracle c4Turns
      ⟨none, [], 0⟩ [] ⟨some 1, [], 1⟩
      (by intro h; exact List.noConfusion h) rfl rfl
  exact ⟨h1, h2, h3 3, h4 c4TurnsB (by decide) (by intro h; exact List.noConfusion h)⟩

end Intake

/-! ## Structured findings and the pure classifiers

Downstream of `_call_llm` every finding is a dict with the fixed schema of the
system prompt (`finding_type`, `field`, `value`, `transcript_index`, `quote`,
`confidence`; `transcript_indices` and `related_to` are never read by the
pipeline and are omitted).  `quote = ""` models both an absent and an empty
quote — the code only ever uses the Python-falsiness of that field. -/

namespace Intake

/-- One validated (non-null-valued) finding. -/
structure Finding where
  finding_type : String
  field : String
  value : String
  transcript_index : Option Int := none
  quote : String := ""
  confidence : String := "high"
deriving DecidableEq

/-- The `_cited_text` / `_turn_index` / `_confidence` private keys each
classified entity dict carries for the provenance linker. -/
structure CiteMeta where
  citedText : String
  turnIndex : Option Int
  confidence : String
deriving DecidableEq

/-- Model of `{"_cited_text": f.get("quote") or value, "_turn_index":
f.get("transcript_index"), "_confidence": f.get("confidence", "high")}`. -/
def citeMetaOf (f : Finding) (value : String) : CiteMeta :=
  ⟨if f.quote = "" then value else f.quote, f.transcript_index, f.confidence⟩

/-- Model of `{field: finding}` metadata index (a Python dict comprehension keeps the
last finding for a duplicated field). -/
def metaGet (fs : List Finding) (fld : String) : Option Finding :=
  (fs.filter (fun f => f.finding_type == "metadata" && f.field == fld)).getLast?

/-- Model of `(meta.get(fld) or {}).get("value") or ""`. -/
def metaValue (fs : List Finding) (fld : String) : String :=
  match metaGet fs fld with
  | some f => f.value
  | none => ""

/-- Model of `_INCIDENT_TYPE_MAP.get(key, "other")`. -/
def incidentTypeMap (s : String) : String :=
  if s = "auto_accident" ∨ s = "auto accident" then "auto"
  else if s = "slip_fall" ∨ s = "slip and fall" then "slip_fall"
  else if s = "medical_malpractice" ∨ s = "medical malpractice" then "medical_malpractice"
  else if s = "workers_comp" ∨ s = "workers compensation" ∨ s = "workplace" then "workplace"
  else if s = "product_liability" ∨ s = "product liability" then "product_liability"
  else "other"

/-- The dict `_extract_incident_info` returns (`confidence_scores` is always
the empty dict in the source and is omitted). -/
structure IncidentInfo where
  incident_date : Option Int
  incident_type : Option String
  incident_location : Option String
  injuries : List String
deriving DecidableEq

/-- Model of `TranscriptParserService._extract_incident_info`, given the cached
findings.  `pd` is `datetime.date.fromisoformat` (`none` = `ValueError`,
which the code logs and swallows, leaving the date `None`). -/
def extractIncidentInfo (pd : String → Option Int) (fs : List Finding) :
    IncidentInfo :=
  let rawDate := metaValue fs "accident_date"
  let rawType := metaValue fs "case_type"
  let rawInjuries := metaValue fs "injuries"
  { incident_date := if rawDate = "" then none else pd rawDate
    incident_type :=
      if rawType = "" then none
      else some (incidentTypeMap (pyStrip (pyLower rawType)))
    incident_location := (metaGet fs "incident_location").map (fun f => f.value)
    injuries :=
      if rawInjuries = "" then []
      else ((pySplitCommas rawInjuries).map pyStrip).filter (fun i => i ≠ "") }

/-- Model of `caller_name.strip().split(" ", 1)` then
`first = parts[0] if len(parts) == 2 else ""`,
`last = parts[1] if len(parts) == 2 else parts[0]`. -/
def splitCallerName (name : String) : String × String :=
  let t := pyStrip name
  match splitOnceChar ' ' t.data with
  | none => ("", t)
  | some p => (String.mk p.1, String.mk p.2)

/-- The derived caller identity used by `ingest` for matching and creation. -/
def callerNames (fs : List Finding) : String × String :=
  splitCallerName (metaValue fs "caller_name")

/-- Model of `_COMPANY_KEYWORDS`. -/
def companyKeywords : List String :=
  ["inc", "llc", "corp", "co.", "company", "ltd", "group", "trucking",
   "transport", "logistics", "construction", "properties", "management"]

/-- Model of `_FACILITY_KEYWORDS`. -/
def facilityKeywords : List String :=
  ["hospital", "clinic", "center", "centre", "medical", "health", "urgent care",
   "orthopedic", "chiropractic", "chiropractor", "rehab", "rehabilitation",
   "imaging", "radiology", "pharmacy", "er ", "emergency room"]

/-- Model of `any(kw in value_lower for kw in kws)`. -/
def anyKeyword (kws : List String) (valueLower : String) : Bool :=
  kws.any (fun kw => pyContains valueLower kw)

/-- An entry of `result.other_parties`. -/
structure PartyDict where
  first_name : String
  last_name : String
  company_name : String
  role : String
  meta : CiteMeta
deriving DecidableEq

/-- An entry of `result.medical_providers`. -/
structure MedicalDict where
  first_name : String
  last_name : String
  facility_name : String
  specialty : String
  treatment_type : String
  diagnosis : String
  meta : CiteMeta
deriving DecidableEq

/-- An entry of `result.insurance_carriers` (this finding family carries no
citation metadata in the source). -/
structure InsuranceDict where
  company_name : String
  policy_number : String
  claim_number : String
  coverage_type : String
  adjuster_name : String
deriving DecidableEq

/-- An entry of `result.damages`. -/
structure DamageDict where
  category : String
  description : String
  estimated_amount : Option Rat
  meta : CiteMeta
deriving DecidableEq

/-- Model of `TranscriptParserService._extract_parties` on the cached findings. -/
def extract_parties (fs : List Finding) : List PartyDict :=
  fs.filterMap (fun f =>
    if f.finding_type = "individual" ∧ f.field = "other_party" then
      let value := pyStrip f.value
      if value = "" then none
      else
        let meta := citeMetaOf f value
        if anyKeyword companyKeywords (pyLower value) then
          some ⟨"", "", value, "at-fault party", meta⟩
        else
          match splitOnceChar ' ' value.data with
          | none => some ⟨"", value, "", "at-fault party", meta⟩
          | some p => some ⟨String.mk p.1, String.mk p.2, "", "at-fault party", meta⟩
    else none)

/-- Leading whitespace (`\s+`, greedy), requiring at least one character;
returns the remainder, or `none` when no whitespace follows. -/
def wsThenRest : List Char → Option (List Char)
  | [] => none
  | c :: cs => if isPyWs c then some ((c :: cs).dropWhile isPyWs) else none

/-- Model of `re.sub(r"^(Dr\.?\s+|Doctor\s+)", "", value, flags=re.IGNORECASE)`:
the remainder after an honorific prefix, or `none` when the regex does not
match at the start. -/
def honorificRest (cs : List Char) : Option (List Char) :=
  match cs with
  | c0 :: c1 :: rest =>
      if c0.toLower = 'd' ∧ c1.toLower = 'r' then
        match rest with
        | '.' :: rest2 => wsThenRest rest2
        | _ => wsThenRest rest
      else if (cs.take 6).map Char.toLower = "doctor".data then
        wsThenRest (cs.drop 6)
      else none
  | _ => none

/-- The honorific strip plus the `.strip()` applied to its output. -/
def stripHonorific (value : String) : String :=
  match honorificRest value.data with
  | some rest => pyStrip (String.mk rest)
  | none => pyStrip value

/-- Model of `TranscriptParserService._extract_medical` on the cached findings. -/
def extract_medical (fs : List Finding) : List MedicalDict :=
  fs.filterMap (fun f =>
    if f.finding_type = "individual" ∧ f.field = "medical_provider" then
      let value := pyStrip f.value
      if value = "" then none
      else
        let meta := citeMetaOf f value
        if anyKeyword facilityKeywords (pyLower value) then
          some ⟨"", "", value, "", "", "", meta⟩
        else
          let name := stripHonorific value
          match splitOnceChar ' ' name.data with
          | none => some ⟨"", name, "", "", "", "", meta⟩
          | some p => some ⟨String.mk p.1, String.mk p.2, "", "", "", "", meta⟩
    else none)

/-- Model of `TranscriptParserService._extract_insurance` on the cached findings. -/
def extract_insurance (fs : List Finding) : List InsuranceDict :=
  fs.filterMap (fun f =>
    if f.finding_type = "individual" ∧ f.field = "insurance_provider" then
      let value := pyStrip f.value
      if value = "" then none
      else some ⟨value, "", "", "liability", ""⟩
    else none)

/-- ASCII digit test. -/
def isDigit (c : Char) : Bool := '0' ≤ c && c ≤ '9'

/-- Model of `[\d,]` character class. -/
def isDigitComma (c : Char) : Bool := isDigit c || c = ','

/-- The capture group of the first match of `\$?([\d,]+(?:\.\d+)?)` starting
at a given position: the maximal `[\d,]` run plus an optional `.`‑digits
fraction. -/
def grabAmount (cs : List Char) : List Char :=
  let run := cs.takeWhile isDigitComma
  match cs.dropWhile isDigitComma with
  | '.' :: r2 =>
      let frac := r2.takeWhile isDigit
      if frac.isEmpty then run else run ++ '.' :: frac
  | _ => run

/-- Model of `re.search(r"\$?([\d,]+(?:\.\d+)?)", value)`: the capture group of the
leftmost match (the optional `$` does not affect the group). -/
def firstAmountGroup : List Char → Option (List Char)
  | [] => none
  | c :: tl => if isDigitComma c then some (grabAmount (c :: tl)) else firstAmountGroup tl

/-- Little-endian-free decimal digit fold. -/
def digitsToNat (ds : List Char) : Nat :=
  ds.foldl (fun acc c => acc * 10 + (c.toNat - '0'.toNat)) 0

/-- Model of `float(group.replace(",", ""))`, `None` on `ValueError`. -/
def parseAmount (group : List Char) : Option Rat :=
  let ds := group.filter (fun c => c ≠ ',')
  match splitOnceChar '.' ds with
  | none => if ds.isEmpty then none else some ((digitsToNat ds : Nat) : Rat)
  | some p =>
      some (((digitsToNat p.1 : Nat) : Rat) +
            ((digitsToNat p.2 : Nat) : Rat) / ((10 : Rat) ^ p.2.length))

/-- The keyword-precedence damage categorization of `_extract_damages`. -/
def damageCategory (valueLower : String) : String :=
  if anyKeyword ["wage", "lost income", "lost earnings"] valueLower then "lost_wages"
  else if pyContains valueLower "future" && pyContains valueLower "medical" then "future_medical"
  else if anyKeyword ["medical", "hospital", "doctor", "bill", "treatment"] valueLower then "medical"
  else if anyKeyword ["property", "vehicle", "car", "truck", "repair"] valueLower then "property"
  else "other"

/-- Model of `TranscriptParserService._extract_damages` on the cached findings. -/
def extract_damages (fs : List Finding) : List DamageDict :=
  fs.filterMap (fun f =>
    if f.finding_type = "individual" ∧ f.field = "financial_expense" then
      let value := pyStrip f.value
      if value = "" then none
      else
        some ⟨damageCategory (pyLower value), value,
              (firstAmountGroup value.data).bind parseAmount, citeMetaOf f value⟩
    else none)

/-- The pipeline-facing result record (`confidence_scores` is always the empty
dict in the source and is omitted). -/
structure IntakeExtractionResult where
  incident_date : Option Int := none
  incident_type : Option String := none
  incident_location : Option String := none
  injuries : List String := []
  medical_providers : List MedicalDict := []
  insurance_carriers : List InsuranceDict := []
  other_parties : List PartyDict := []
  damages : List DamageDict := []
  raw_flags : List String := []
deriving DecidableEq

/-- Model of `" ".join(str(f.get("value", "")) for f in findings)`. -/
def joinSpace : List String → String
  | [] => ""
  | [s] => s
  | s :: rest => s ++ " " ++ joinSpace rest

/-- Keyword set for the pre-existing-condition scan. -/
def preExistingKeywords : List String :=
  ["pre-existing", "prior injury", "previous condition", "prior condition"]

/-- Keyword set for the liability-dispute scan. -/
def liabilityKeywords : List String :=
  ["disputed", "dispute", "denied liability", "deny liability", "not at fault"]

/-- Model of `TranscriptParserService._flag_risks`.  `today` is `date.today()` as a day
number (the evaluation date); `findings` is the cached finding list
(`self._findings_cache["data"]`, `[]` when no call was made). -/
def flagRisks (today : Int) (findings : List Finding)
    (r : IntakeExtractionResult) : List String :=
  (match r.incident_date with
   | some d => if today - d > 600 then ["statute_of_limitations_risk"] else []
   | none => []) ++
  (if r.incident_type = some "auto" ∧ r.insurance_carriers = [] then
    ["uninsured_motorist"] else []) ++
  (if r.other_parties.length > 1 then ["multiple_defendants"] else []) ++
  (let allText := pyLower (joinSpace (findings.map (fun f => f.value)))
   (if anyKeyword preExistingKeywords allText then ["pre_existing_condition"] else []) ++
   (if anyKeyword liabilityKeywords allText then ["liability_disputed"] else []))

/-- Steps 2–4 of `parse` / step 7–8 of `ingest`: assemble the
`IntakeExtractionResult` from the cached findings and flag risks. -/
def buildResult (pd : String → Option Int) (today : Int) (fs : List Finding) :
    IntakeExtractionResult :=
  let info := extractIncidentInfo pd fs
  let base : IntakeExtractionResult :=
    { incident_date := info.incident_date
      incident_type := info.incident_type
      incident_location := info.incident_location
      injuries := info.injuries
      medical_providers := extract_medical fs
      insurance_carriers := extract_insurance fs
      other_parties := extract_parties fs
      damages := extract_damages fs
      raw_flags := [] }
  { base with raw_flags := flagRisks today fs base }

end Intake

/-! ## Claims C8 and C9 — risk-flag characterizations -/

namespace Intake

/-- Membership in a guarded singleton flag segment. -/
theorem mem_if_singleton {c : Prop} [Decidable c] {a b : String} :
    (a ∈ (if c then [b] else [])) ↔ (c ∧ a = b) := by
  by_cases h : c <;> simp [h]

/-- C8: The statute-of-limitations flag is emitted iff an incident date is
set and strictly more than 600 days separate it from the evaluation date:
600 elapsed days do not flag, 601 do. -/
theorem c8_statute_of_limitations_boundary (today : Int)
    (findings : List Finding) (r : IntakeExtractionResult) :
    "statute_of_limitations_risk" ∈ flagRisks today findings r ↔
      ∃ d, r.incident_date = some d ∧ today - d > 600 := by
  unfold flagRisks
  rcases hd : r.incident_date with _ | d
  · simp [hd, mem_if_singleton, List.mem_append]
  · by_cases h6 : today - d > 600 <;>
      simp [hd, h6, mem_if_singleton, List.mem_append]

/-- C9: The uninsured-motorist flag is emitted iff the extracted incident
type is exactly `"auto"` and the insurance-carriers list is empty; any other
incident type never emits it, whatever the insurance data. -/
theorem c9_uninsured_motorist_iff (today : Int)
    (findings : List Finding) (r : IntakeExtractionResult) :
    "uninsured_motorist" ∈ flagRisks today findings r ↔
      (r.incident_type = some "auto" ∧ r.insurance_carriers = []) := by
  unfold flagRisks
  by_cases hc : r.incident_type = some "auto" ∧ r.insurance_carriers = []
  · rcases hd : r.incident_date with _ | d
    · simp [hd, hc, mem_if_singleton, List.mem_append]
    · by_cases h6 : today - d > 600 <;>
        simp [hd, h6, hc, mem_if_singleton, List.mem_append]
  · rcases hd : r.incident_date with _ | d
    · simp [hd, hc, mem_if_singleton, List.mem_append]
    · by_cases h6 : today - d > 600 <;>
        simp [hd, h6, hc, mem_if_singleton, List.mem_append]

end Intake

/-! ## Claim C3 — parse-status transitions of `parse` -/

namespace Intake

/-- The slice of a `ClientCommunication` row that `parse` touches. -/
structure ParseComm where
  parse_status : String
deriving DecidableEq

/-- Model of `TranscriptParserService.parse` (lines 57–93).  All five extraction
sub-methods share the one cached `_call_llm` outcome for the communication's
transcript, which is passed here as `ext`; on success the result is built,
risks are flagged and the communication's `parse_status` is saved as
`"done"`; a raised extraction error propagates before any status write (the
`parse` view in `views.py` catches it and returns a 500 without touching the
status). -/
def parse_run (pd : String → Option Int) (today : Int)
    (ext : Except ExtractionError (List Finding)) (comm : ParseComm) :
    Except ExtractionError IntakeExtractionResult × ParseComm :=
  match ext with
  | .error e => (.error e, comm)
  | .ok findings => (.ok (buildResult pd today findings), { parse_status := "done" })

/-- C3 (amended): On success `parse` moves the communication's parse
status to `"done"`; on an unrecoverable extraction error the exception
propagates and the status is left exactly as it was (still
pending/processing) — it is never set to `"failed"`. -/
theorem c3_parse_status_transition (pd : String → Option Int) (today : Int)
    (ext : Except ExtractionError (List Finding)) (comm : ParseComm) :
    (parse_run pd today ext comm).2.parse_status =
      match ext with
      | .ok _ => "done"
      | .error _ => comm.parse_status := by
  rcases ext with e | fs <;> rfl

/-- C3 counterexample: A parse whose extraction call fails (non-JSON
response, an unrecoverable classified error) leaves a pending communication's
parse status at `"pending"` — not `"failed"` as the claim requires. -/
theorem c3_error_leaves_status_pending :
    (parse_run (fun _ => none) 0
        (.error (.nonJsonResponse "oops")) ⟨"pending"⟩).1 =
      .error (.nonJsonResponse "oops") ∧
    (parse_run (fun _ => none) 0
        (.error (.nonJsonResponse "oops")) ⟨"pending"⟩).2.parse_status =
      "pending" :=
  ⟨rfl, rfl⟩

end Intake

/-! ## Storage model

Rows live in in-memory lists.  `DB.nextId` is a single monotone allocator for
both primary keys and `created_at` timestamps, so a later-created row always
has a larger `createdAt`.  `Case` has Django meta-ordering `["-created_at"]`,
so the cases table is kept newest-first (creation prepends); every other
ordering the pipeline relies on is made explicit (`latestClient`). -/

namespace Intake

/-- Model of `LawFirm` (the fields the pipeline reads). -/
structure LawFirmRec where
  id : Nat
  name : String
deriving DecidableEq

/-- Model of `Client`. -/
structure Client where
  id : Nat
  lawFirm : Nat
  first_name : String
  last_name : String
  createdAt : Nat
deriving DecidableEq

/-- Model of `Case`. -/
structure Case where
  id : Nat
  clientId : Nat
  incident_type : String
  incident_date : Option Int
  incident_location : String
deriving DecidableEq

/-- Model of `ClientCommunication` (the fields `ingest` writes). -/
structure CommRec where
  id : Nat
  clientId : Nat
  caseId : Nat
  parse_status : String
deriving DecidableEq

/-- Model of `OtherParty`. -/
structure OtherPartyRec where
  id : Nat
  caseId : Nat
  first_name : String
  last_name : String
  company_name : String
  role : String
deriving DecidableEq

/-- Model of `MedicalFacility`. -/
structure FacilityRec where
  id : Nat
  name : String
deriving DecidableEq

/-- Model of `MedicalProvider`. -/
structure ProviderRec where
  id : Nat
  first_name : String
  last_name : String
  facility : Option Nat
  specialty : String
deriving DecidableEq

/-- Model of `Treatment`. -/
structure TreatmentRec where
  id : Nat
  caseId : Nat
  providerId : Nat
  treatment_type : String
  diagnosis : String
deriving DecidableEq

/-- Model of `Damage`. -/
structure DamageRec where
  id : Nat
  caseId : Nat
  category : String
  description : String
  estimated_amount : Option Rat
deriving DecidableEq

/-- Model of `ClientCommunicationCitation`. -/
structure CitationRec where
  id : Nat
  commId : Nat
  citation_key : String
  cited_text : String
  turn_index : Option Int
  confidence_score : Rat
deriving DecidableEq

/-- Model of `CitationReference` (`kind` is the content-type model name). -/
structure CitationRefRec where
  id : Nat
  citationId : Nat
  kind : String
  objectId : Nat
  relationship_label : String
deriving DecidableEq

/-- The in-memory database. -/
structure DB where
  lawFirms : List LawFirmRec := []
  clients : List Client := []
  cases : List Case := []
  comms : List CommRec := []
  otherParties : List OtherPartyRec := []
  facilities : List FacilityRec := []
  providers : List ProviderRec := []
  treatments : List TreatmentRec := []
  damages : List DamageRec := []
  citations : List CitationRec := []
  citationRefs : List CitationRefRec := []
  nextId : Nat := 1
deriving DecidableEq

/-- Model of `CitationReference.ALLOWED_CONTENT_TYPES`. -/
def allowedContentTypes : List String :=
  ["client", "otherparty", "medicalprovider", "insuranceprovider"]

/-- Model of `_CONF = {"high": 1.0, "medium": 0.7, "low": 0.4}` with default `1.0`. -/
def confOf (conf : String) : Rat :=
  let t := pyLower conf
  if t = "high" then 1
  else if t = "medium" then 7/10
  else if t = "low" then 2/5
  else 1

/-- Outcome of a sequence of storage writes: either it completed, or an
uncaught exception escaped; both carry the database holding every write
performed up to that point (the storage layer is not wrapped in one
cross-entity transaction). -/
inductive StepResult where
  | ok (db : DB)
  | failed (db : DB)

/-- The database state carried by either outcome. -/
def StepResult.db : StepResult → DB
  | .ok d => d
  | .failed d => d

/-- Whether an uncaught write exception escaped. -/
def StepResult.isFailed : StepResult → Bool
  | .ok _ => false
  | .failed _ => true

/-- Model of `_cite` (lines 122–141): create a `ClientCommunicationCitation` and, when
the backing object's content type is in the allowed set, a
`CitationReference`.  `cf key citedText = true` (resp. `rf label = true`)
models the citation (resp. reference) `create` raising; the source has no
`try`/`except` around either write, so a raise escapes with the writes
performed so far. -/
def citeWrite (cf : String → String → Bool) (rf : String → Bool)
    (comm : Option Nat) (key : String) (meta : CiteMeta)
    (obj : Option (String × Nat)) (label : String) (db : DB) : StepResult :=
  match comm with
  | none => .ok db
  | some cid =>
      if cf key meta.citedText then .failed db
      else
        let i := db.nextId
        let db1 := { db with
          nextId := db.nextId + 1
          citations := db.citations ++
            [⟨i, cid, key, meta.citedText, meta.turnIndex,
              confOf meta.confidence⟩] }
        match obj with
        | none => .ok db1
        | some ko =>
            if allowedContentTypes.contains ko.1 then
              if rf label then .failed db1
              else
                .ok { db1 with
                  nextId := db1.nextId + 1
                  citationRefs := db1.citationRefs ++
                    [⟨db1.nextId, i, ko.1, ko.2, label⟩] }
            else .ok db1

/-- Model of `Case.save(update_fields=...)` step of `persist` (lines 143–152): fill the
case's incident date / type when the result has one and the stored field is
blank. -/
def updateCaseFields (caseId : Nat) (res : IntakeExtractionResult) (db : DB) : DB :=
  { db with cases := db.cases.map (fun k =>
      if k.id = caseId then
        let k1 :=
          match res.incident_date, k.incident_date with
          | some d, none => { k with incident_date := some d }
          | _, _ => k
        match res.incident_type with
        | some t => if t ≠ "" ∧ k1.incident_type = "" then { k1 with incident_type := t } else k1
        | none => k1
      else k) }

/-- The `OtherParty` natural-key lookup of `get_or_create(case, first_name,
last_name)`. -/
def findParty (db : DB) (caseId : Nat) (fn ln : String) : Option OtherPartyRec :=
  db.otherParties.find? (fun o =>
    o.caseId == caseId && o.first_name == fn && o.last_name == ln)

/-- One iteration of the other-parties loop of `persist` (lines 154–166):
`OtherParty.objects.get_or_create(case, first_name, last_name, defaults=…)`,
then `_cite` only when a row was created. -/
def persistOneParty (cf : String → String → Bool) (rf : String → Bool)
    (comm : Option Nat) (caseId : Nat) (p : PartyDict) (db : DB) : StepResult :=
  match findParty db caseId p.first_name p.last_name with
  | some _ => .ok db
  | none =>
      let i := db.nextId
      let db1 := { db with
        nextId := db.nextId + 1
        otherParties := db.otherParties ++
          [⟨i, caseId, p.first_name, p.last_name, p.company_name, p.role⟩] }
      citeWrite cf rf comm "other_party" p.meta (some ("otherparty", i))
        "at-fault party" db1

/-- Model of `Treatment.objects.get_or_create(case=case, provider=provider, …)`. -/
def treatmentGetOrCreate (caseId providerId : Nat) (m : MedicalDict) (db : DB) : DB :=
  match db.treatments.find? (fun t =>
      t.caseId == caseId && t.providerId == providerId) with
  | some _ => db
  | none =>
      { db with
        nextId := db.nextId + 1
        treatments := db.treatments ++
          [⟨db.nextId, caseId, providerId, m.treatment_type, m.diagnosis⟩] }

/-- Model of `MedicalFacility.objects.get_or_create(name=facility_name)` (skipped for
a blank facility name, where `facility` stays `None`). -/
def facilityGetOrCreate (name : String) (db : DB) : Option Nat × DB :=
  if name = "" then (none, db)
  else
    match db.facilities.find? (fun x => x.name == name) with
    | some x => (some x.id, db)
    | none =>
        (some db.nextId,
         { db with
           nextId := db.nextId + 1
           facilities := db.facilities ++ [⟨db.nextId, name⟩] })

/-- The `MedicalProvider` natural-key lookup of
`get_or_create(first_name, last_name)` (not scoped by case). -/
def findProvider (db : DB) (fn ln : String) : Option ProviderRec :=
  db.providers.find? (fun pr => pr.first_name == fn && pr.last_name == ln)

/-- Provider `get_or_create` (+ `_cite` on creation) followed by the
per-(case, provider) treatment upsert. -/
def providerStep (cf : String → String → Bool) (rf : String → Bool)
    (comm : Option Nat) (caseId : Nat) (m : MedicalDict) (fac : Option Nat)
    (db : DB) : StepResult :=
  match findProvider db m.first_name m.last_name with
  | some pr => .ok (treatmentGetOrCreate caseId pr.id m db)
  | none =>
      match citeWrite cf rf comm "medical_provider" m.meta
          (some ("medicalprovider", db.nextId)) "treating provider"
          { db with
            nextId := db.nextId + 1
            providers := db.providers ++
              [⟨db.nextId, m.first_name, m.last_name, fac, m.specialty⟩] } with
      | .failed d => .failed d
      | .ok d2 => .ok (treatmentGetOrCreate caseId db.nextId m d2)

/-- One iteration of the medical-providers loop of `persist` (lines 168–190). -/
def persistOneMedical (cf : String → String → Bool) (rf : String → Bool)
    (comm : Option Nat) (caseId : Nat) (m : MedicalDict) (db : DB) : StepResult :=
  match facilityGetOrCreate m.facility_name db with
  | (fac, db0) => providerStep cf rf comm caseId m fac db0

/-- One iteration of the damages loop of `persist` (lines 192–203):
`Damage.objects.get_or_create(case, category, defaults=…)` plus `_cite` on
creation (no backing object, so no reference). -/
def persistOneDamage (cf : String → String → Bool) (rf : String → Bool)
    (comm : Option Nat) (caseId : Nat) (d : DamageDict) (db : DB) : StepResult :=
  match db.damages.find? (fun x => x.caseId == caseId && x.category == d.category) with
  | some _ => .ok db
  | none =>
      let db1 := { db with
        nextId := db.nextId + 1
        damages := db.damages ++
          [⟨db.nextId, caseId, d.category, d.description,
            d.estimated_amount⟩] }
      citeWrite cf rf comm "financial_expense" d.meta none "" db1

/-- A `for` loop over rows: stop at the first uncaught exception. -/
def persistList {α : Type} (step : α → DB → StepResult) :
    List α → DB → StepResult
  | [], db => .ok db
  | x :: xs, db =>
      match step x db with
      | .failed d => .failed d
      | .ok d => persistList step xs d

/-- Model of `TranscriptParserService.persist` (lines 95–203). -/
def persistRun (cf : String → String → Bool) (rf : String → Bool)
    (caseId : Nat) (res : IntakeExtractionResult) (comm : Option Nat)
    (db : DB) : StepResult :=
  match persistList (persistOneParty cf rf comm caseId) res.other_parties
      (updateCaseFields caseId res db) with
  | .failed d => .failed d
  | .ok d1 =>
      match persistList (persistOneMedical cf rf comm caseId)
          res.medical_providers d1 with
      | .failed d => .failed d
      | .ok d2 => persistList (persistOneDamage cf rf comm caseId) res.damages d2

end Intake

/-! ## The case/client matcher and the bootstrap ingest orchestration -/

namespace Intake

/-- The client queryset of `_find_existing_case` (line 382): same law firm,
case-insensitive exact first and last name. -/
def clientsOf (db : DB) (firmId : Nat) (fn ln : String) : List Client :=
  db.clients.filter (fun c =>
    c.lawFirm == firmId && pyLower c.first_name == pyLower fn &&
    pyLower c.last_name == pyLower ln)

/-- Model of `client_qs.order_by("-created_at").first()`: the most recently created
candidate. -/
def latestClient : List Client → Option Client
  | [] => none
  | c :: cs =>
      match latestClient cs with
      | none => some c
      | some b => if b.createdAt ≤ c.createdAt then some c else some b

/-- Model of `client.case_set.all()` (newest-first, the model's meta ordering). -/
def casesOf (db : DB) (clientId : Nat) : List Case :=
  db.cases.filter (fun k => k.clientId == clientId)

/-- The fallback tier's per-case test (lines 407–415): exact incident-type
equality and `incident_location__icontains` of the 40-character stripped
anchor. -/
def typeLocCaseMatch (itype iloc : String) (k : Case) : Bool :=
  k.incident_type == itype &&
  pyContainsCI k.incident_location (pyStrip (pyTake 40 iloc))

/-- The primary tier (lines 397–405): exact incident-date equality, tried
only when a date was supplied (a `date` object is always truthy). -/
def dateTier (ks : List Case) (idate : Option Int) : Option Case :=
  match idate with
  | some d => ks.find? (fun k => k.incident_date == some d)
  | none => none

/-- The fallback tier (lines 407–421): tried only when both an incident type
and a non-empty location were supplied. -/
def typeLocTier (ks : List Case) (itype iloc : Option String) : Option Case :=
  match itype, iloc with
  | some t, some l =>
      if t = "" ∨ l = "" then none
      else ks.find? (typeLocCaseMatch t l)
  | _, _ => none

/-- Model of `TranscriptParserService._find_existing_case` (lines 358–423). -/
def findExistingCase (db : DB) (firmId : Nat) (fn ln : String)
    (itype : Option String) (idate : Option Int) (iloc : Option String) :
    Option (Client × Case) :=
  match latestClient (clientsOf db firmId fn ln) with
  | none => none
  | some c =>
      if (casesOf db c.id).isEmpty then none
      else
        match dateTier (casesOf db c.id) idate with
        | some k => some (c, k)
        | none =>
            match typeLocTier (casesOf db c.id) itype iloc with
            | some k => some (c, k)
            | none => none

/-- Model of `_cite_meta`'s cited text:
`finding.get("quote") or str(finding.get("value", ""))`. -/
def metaFindingCite (f : Finding) : CiteMeta :=
  ⟨if f.quote = "" then f.value else f.quote, f.transcript_index, f.confidence⟩

/-- Model of `_cite_meta(citation_key, finding, obj, label)`: skipped when the finding
is absent. -/
def citeMetaFinding (cf : String → String → Bool) (rf : String → Bool)
    (commId : Nat) (key : String) (f? : Option Finding)
    (obj : Option (String × Nat)) (label : String) (db : DB) : StepResult :=
  match f? with
  | none => .ok db
  | some f => citeWrite cf rf (some commId) key (metaFindingCite f) obj label db

/-- Model of `TranscriptParserService._write_metadata_citations` (lines 317–356). -/
def writeMetaCitations (cf : String → String → Bool) (rf : String → Bool)
    (commId : Nat) (fs : List Finding) (clientId : Nat) (db : DB) : StepResult :=
  match citeMetaFinding cf rf commId "caller_name" (metaGet fs "caller_name")
      (some ("client", clientId)) "identified caller" db with
  | .failed d => .failed d
  | .ok d1 =>
      match citeMetaFinding cf rf commId "accident_date"
          (metaGet fs "accident_date") none "" d1 with
      | .failed d => .failed d
      | .ok d2 =>
          match citeMetaFinding cf rf commId "case_type"
              (metaGet fs "case_type") none "" d2 with
          | .failed d => .failed d
          | .ok d3 =>
              citeMetaFinding cf rf commId "incident_location"
                (metaGet fs "incident_location") none "" d3

/-- The two `RuntimeError`/`DoesNotExist` classes that can escape `ingest`. -/
inductive IngestErr where
  | lawFirmNotFound
  | storageWriteFailed
deriving DecidableEq

/-- Model of `(meta.get("law_firm_name") or {}).get("value") or "Unknown Law Firm"`. -/
def firmNameOf (fs : List Finding) : String :=
  if metaValue fs "law_firm_name" = "" then "Unknown Law Firm"
  else metaValue fs "law_firm_name"

/-- Step 3 of `ingest`: `LawFirm.objects.get(pk=…)` when an id is supplied
(`DoesNotExist` → 400 in the view), otherwise `get_or_create` by the
extracted firm name with fallback `"Unknown Law Firm"`. -/
def resolveLawFirm (fs : List Finding) (lfid : Option Nat) (db : DB) :
    Except IngestErr (Nat × DB) :=
  match lfid with
  | some i =>
      if db.lawFirms.any (fun f => f.id == i) then .ok (i, db)
      else .error .lawFirmNotFound
  | none =>
      match db.lawFirms.find? (fun f => f.name == firmNameOf fs) with
      | some f => .ok (f.id, db)
      | none =>
          .ok (db.nextId,
               { db with
                 nextId := db.nextId + 1
                 lawFirms := db.lawFirms ++ [⟨db.nextId, firmNameOf fs⟩] })

/-- Model of `Client.objects.get_or_create(law_firm, first_name, last_name)` — exact
(case-sensitive) match, creation otherwise. -/
def clientGetOrCreate (firmId : Nat) (fn ln : String) (db : DB) : Client × DB :=
  match db.clients.find? (fun c =>
      c.lawFirm == firmId && c.first_name == fn && c.last_name == ln) with
  | some c => (c, db)
  | none =>
      let c : Client := ⟨db.nextId, firmId, fn, ln, db.nextId⟩
      (c, { db with nextId := db.nextId + 1, clients := db.clients ++ [c] })

/-- Model of `Case.objects.create(...)` in the no-match branch of `ingest`
(the generated `case_number` carries no matching-relevant content and is
omitted).  Creation prepends: the cases table is kept newest-first. -/
def caseCreate (clientId : Nat) (info : IncidentInfo) (db : DB) : Case × DB :=
  let k : Case := ⟨db.nextId, clientId,
    (info.incident_type.getD ""), info.incident_date,
    (info.incident_location.getD "")⟩
  (k, { db with nextId := db.nextId + 1, cases := k :: db.cases })

/-- Model of `ClientCommunication.objects.create(..., parse_status="processing")`. -/
def commCreate (clientId caseId : Nat) (db : DB) : CommRec × DB :=
  let m : CommRec := ⟨db.nextId, clientId, caseId, "processing"⟩
  (m, { db with nextId := db.nextId + 1, comms := db.comms ++ [m] })

/-- Step 10 of `ingest`: save `parse_status = "done"`. -/
def markCommDone (commId : Nat) (db : DB) : DB :=
  { db with comms := db.comms.map (fun m =>
      if m.id = commId then { m with parse_status := "done" } else m) }

/-- What `ingest` returns (plus the database it leaves behind). -/
structure IngestOut where
  matched : Bool
  lawFirmId : Nat
  clientId : Nat
  caseId : Nat
  commId : Nat
  result : IntakeExtractionResult
  db : DB
deriving DecidableEq

/-- Decidable equality of pipeline outcomes, for concrete evaluations. -/
instance {ε α : Type} [DecidableEq ε] [DecidableEq α] :
    DecidableEq (Except ε α)
  | .error e, .error f =>
      if h : e = f then .isTrue (by rw [h])
      else .isFalse (fun hh => by cases hh; exact h rfl)
  | .error _, .ok _ => .isFalse (fun hh => by cases hh)
  | .ok _, .error _ => .isFalse (fun hh => by cases hh)
  | .ok a, .ok b =>
      if h : a = b then .isTrue (by rw [h])
      else .isFalse (fun hh => by cases hh; exact h rfl)

/-- Model of `TranscriptParserService.ingest` (lines 205–315), starting from the
findings of its one (successful) `_call_llm` — every later `_extract_*` call
inside `ingest` is a cache hit on exactly this list, and the call itself is
deterministic in the external response, so re-ingesting "with the extractor
returning the same findings" is a second run of this function on the same
`fs`. -/
def ingest (pd : String → Option Int) (today : Int)
    (cf : String → String → Bool) (rf : String → Bool)
    (fs : List Finding) (lfid : Option Nat) (db : DB) :
    Except IngestErr IngestOut :=
  match resolveLawFirm fs lfid db with
  | .error e => .error e
  | .ok (fid, db1) =>
      let fn := (callerNames fs).1
      let ln := (callerNames fs).2
      let info := extractIncidentInfo pd fs
      match findExistingCase db1 fid fn ln
          info.incident_type info.incident_date info.incident_location with
      | some ck =>
          let comm2 := commCreate ck.1.id ck.2.id db1
          let result := buildResult pd today fs
          match persistRun cf rf ck.2.id result (some comm2.1.id) comm2.2 with
          | .failed _ => .error .storageWriteFailed
          | .ok db3 =>
              .ok ⟨true, fid, ck.1.id, ck.2.id, comm2.1.id, result,
                   markCommDone comm2.1.id db3⟩
      | none =>
          let cdb := clientGetOrCreate fid fn ln db1
          let kdb := caseCreate cdb.1.id info cdb.2
          let comm2 := commCreate cdb.1.id kdb.1.id kdb.2
          match writeMetaCitations cf rf comm2.1.id fs cdb.1.id comm2.2 with
          | .failed _ => .error .storageWriteFailed
          | .ok db5 =>
              let result := buildResult pd today fs
              match persistRun cf rf kdb.1.id result (some comm2.1.id) db5 with
              | .failed _ => .error .storageWriteFailed
              | .ok db6 =>
                  .ok ⟨false, fid, cdb.1.id, kdb.1.id, comm2.1.id, result,
                       markCommDone comm2.1.id db6⟩

end Intake

/-! ## Claim C2 — citation-write failures during `persist` -/

namespace Intake

/-- C2 (amended): A citation write happens only after its underlying
domain fact has been created, so a citation-write failure never prevents that
fact's creation — but the failure is not caught or logged: it escapes
`persist`, so none of the remaining domain facts of the same pass are
created.  Concretely: when the first other-party fact is new and its citation
write raises, `persist` ends in the failed state whose database contains
exactly that one new other-party row (and none of the remaining parties,
providers or damages). -/
theorem c2_citation_failure_semantics
    (cf : String → String → Bool) (rf : String → Bool) (commId caseId : Nat)
    (res : IntakeExtractionResult) (db : DB)
    (p : PartyDict) (rest : List PartyDict)
    (hres : res.other_parties = p :: rest)
    (hnew : findParty (updateCaseFields caseId res db) caseId
        p.first_name p.last_name = none)
    (hfail : cf "other_party" p.meta.citedText = true) :
    (persistRun cf rf caseId res (some commId) db).isFailed = true ∧
    (persistRun cf rf caseId res (some commId) db).db.otherParties =
      db.otherParties ++
        [⟨(updateCaseFields caseId res db).nextId, caseId, p.first_name,
          p.last_name, p.company_name, p.role⟩] := by
  simp only [persistRun, hres, persistList, persistOneParty, hnew, citeWrite,
    hfail, if_true, StepResult.isFailed, StepResult.db]
  exact ⟨trivial, rfl⟩

/-- The two-party extraction result for the C2 counterexample. -/
def c2Res : IntakeExtractionResult :=
  { other_parties :=
      [⟨"Alice", "Smith", "", "at-fault party", ⟨"quote a", some 1, "high"⟩⟩,
       ⟨"Bob", "Jones", "", "at-fault party", ⟨"quote b", some 2, "high"⟩⟩] }

/-- C2 counterexample: With a communication supplied and the citation
store raising on every write, persisting a two-party result aborts after the
first party: the run fails (the exception propagates to the caller instead of
being logged) and only one of the two other-party facts is created —
contradicting "does not prevent … the creation of the remaining domain facts
in the same persist pass; the citation-write failure is non-fatal". -/
theorem c2_counterexample :
    (persistRun (fun _ _ => true) (fun _ => false) 10 c2Res (some 5) {}).isFailed
      = true ∧
    (persistRun (fun _ _ => true) (fun _ => false) 10 c2Res (some 5)
        {}).db.otherParties.length = 1 ∧
    c2Res.other_parties.length = 2 := by
  refine ⟨rfl, rfl, rfl⟩

/-- Witness for the amended C2 theorem at a concrete result, database and
failure pattern. -/
theorem c2_citation_failure_witness :
    (persistRun (fun _ _ => true) (fun _ => false) 10 c2Res (some 5) {}).isFailed
      = true ∧
    (persistRun (fun _ _ => true) (fun _ => false) 10 c2Res (some 5)
        {}).db.otherParties =
      ({} : DB).otherParties ++
        [⟨(updateCaseFields 10 c2Res {}).nextId, 10, "Alice", "Smith", "",
          "at-fault party"⟩] :=
  c2_citation_failure_semantics (fun _ _ => true) (fun _ => false) 10 10 c2Res {}
    ⟨"Alice", "Smith", "", "at-fault party", ⟨"quote a", some 1, "high"⟩⟩
    (⟨"Bob", "Jones", "", "at-fault party", ⟨"quote b", some 2, "high"⟩⟩ :: [])
    rfl rfl rfl

end Intake

/-! ## Claim C6 — tier ordering of the matcher -/

namespace Intake

/-- C6: When an incident date is supplied and the resolved client owns a
case matching that date exactly, `_find_existing_case` returns that
date-matched case — whatever `incident_type`/`incident_location` are supplied
and whatever other cases would satisfy the type+location tier; the fallback
tier is reached only when no exact date match exists. -/
theorem c6_date_tier_preferred
    (db : DB) (firmId : Nat) (fn ln : String) (itype : Option String)
    (iloc : Option String) (d : Int) (c : Client) (km : Case)
    (hc : latestClient (clientsOf db firmId fn ln) = some c)
    (hfind : (casesOf db c.id).find? (fun k => k.incident_date == some d) =
      some km) :
    findExistingCase db firmId fn ln itype (some d) iloc = some (c, km) ∧
    km.incident_date = some d := by
  have hmem : km ∈ casesOf db c.id := List.mem_of_find?_eq_some hfind
  have hne : (casesOf db c.id).isEmpty = false := by
    cases h : casesOf db c.id with
    | nil => rw [h] at hmem; exact absurd hmem (List.not_mem_nil km)
    | cons a l => rfl
  have hkm := List.find?_some hfind
  refine ⟨?_, by simpa using hkm⟩
  simp only [findExistingCase, hc, hne, Bool.false_eq_true, if_false]
  rw [show dateTier (casesOf db c.id) (some d) = some km from hfind]

/-- A client with two cases: one matching only by type+location (listed
first, i.e. more recently created) and one matching the supplied date. -/
def c6Db : DB :=
  { clients := [⟨1, 5, "Jane", "Smith", 1⟩]
    cases := [⟨10, 1, "auto", some 50, "123 Main St, Springfield"⟩,
              ⟨11, 1, "auto", some 100, "elsewhere"⟩]
    nextId := 12 }

/-- Witness for C6: with a date-matching case and a distinct case matching
the type+location tier both present, the matcher returns the date match. -/
theorem c6_date_tier_preferred_witness :
    findExistingCase c6Db 5 "Jane" "Smith" (some "auto") (some 100)
        (some "123 Main St") =
      some (⟨1, 5, "Jane", "Smith", 1⟩, ⟨11, 1, "auto", some 100, "elsewhere"⟩) ∧
    (⟨11, 1, "auto", some 100, "elsewhere"⟩ : Case).incident_date = some 100 ∧
    typeLocCaseMatch "auto" "123 Main St"
      ⟨10, 1, "auto", some 50, "123 Main St, Springfield"⟩ = true := by
  have h := c6_date_tier_preferred c6Db 5 "Jane" "Smith" (some "auto")
    (some "123 Main St") 100 ⟨1, 5, "Jane", "Smith", 1⟩
    ⟨11, 1, "auto", some 100, "elsewhere"⟩ (by decide) (by decide)
  exact ⟨h.1, h.2, by decide⟩

end Intake

/-! ## Claim C7 — the type+location fallback tier -/

namespace Intake

/-- The claim's (C7/spec) version of the fallback-tier test, stated in the
spec's words for comparison: exact incident-type equality and the stored
location containing, as a case-insensitive substring, the first 40 characters
of the supplied location (taken verbatim, with no whitespace stripping). -/
def specTypeLocMatch (t l : String) (k : Case) : Prop :=
  k.incident_type = t ∧ pyContainsCI k.incident_location (pyTake 40 l) = true

/-- C7 (amended): With a resolved client, no supplied incident date, and
non-empty type and location, the matcher returns a case iff the client owns a
case with exactly equal incident type whose stored location contains — as a
case-insensitive substring — the first 40 characters of the supplied
location *with leading/trailing whitespace stripped* (the code anchors on
`incident_location[:40].strip()`).  A supplied location agreeing with a
stored one only beyond character 40 therefore never matches. -/
theorem c7_typeloc_tier_characterization
    (db : DB) (firmId : Nat) (fn ln : String) (t l : String) (c : Client)
    (hc : latestClient (clientsOf db firmId fn ln) = some c)
    (hne : (casesOf db c.id).isEmpty = false)
    (ht : t ≠ "") (hl : l ≠ "") :
    (findExistingCase db firmId fn ln (some t) none (some l)).isSome = true ↔
      ∃ k ∈ casesOf db c.id, k.incident_type = t ∧
        pyContainsCI k.incident_location (pyStrip (pyTake 40 l)) = true := by
  simp only [findExistingCase, dateTier, typeLocTier, hc, hne,
    Bool.false_eq_true, if_false]
  rw [if_neg (by push_neg; exact ⟨ht, hl⟩)]
  rcases hf : (casesOf db c.id).find? (typeLocCaseMatch t l) with _ | k
  · simp only [Option.isSome_none, Bool.false_eq_true, false_iff]
    rintro ⟨k, hk, h1, h2⟩
    have hnone := List.find?_eq_none.mp hf k hk
    simp only [typeLocCaseMatch, Bool.and_eq_true, beq_iff_eq] at hnone
    exact hnone ⟨h1, h2⟩
  · simp only [Option.isSome_some, true_iff]
    have h := List.find?_some hf
    simp only [typeLocCaseMatch, Bool.and_eq_true, beq_iff_eq] at h
    exact ⟨k, List.mem_of_find?_eq_some hf, h.1, h.2⟩

/-- A supplied location whose first 40 characters end in a space: 39 `a`s,
a space, then text. -/
def c7Loc : String := "aaaaaaaaaaaaaaaaaaaaaaaaaaaaaaaaaaaaaaa zz"

/-- A stored location that contains the *stripped* anchor (39 `a`s) but not
the verbatim 40-character anchor (39 `a`s plus a space). -/
def c7Stored : String := "aaaaaaaaaaaaaaaaaaaaaaaaaaaaaaaaaaaaaaab"

/-- One client owning one case with the stored location above. -/
def c7Db : DB :=
  { clients := [⟨1, 5, "Jane", "Smith", 1⟩]
    cases := [⟨10, 1, "auto", none, c7Stored⟩]
    nextId := 11 }

/-- C7 counterexample: The tier matches (the matcher returns the case)
although the stored location does **not** contain the first 40 characters of
the supplied location: the code strips whitespace off the anchor, the claim's
biconditional does not. -/
theorem c7_counterexample :
    (findExistingCase c7Db 5 "Jane" "Smith" (some "auto") none
        (some c7Loc)).isSome = true ∧
    ¬ specTypeLocMatch "auto" c7Loc (⟨10, 1, "auto", none, c7Stored⟩ : Case) := by
  constructor
  · decide
  · intro h
    exact absurd h.2 (by decide)

/-- Witness for the amended C7 characterization at a concrete database. -/
theorem c7_typeloc_tier_witness :
    (findExistingCase c7Db 5 "Jane" "Smith" (some "auto") none
        (some c7Loc)).isSome = true ↔
      ∃ k ∈ casesOf c7Db 1, k.incident_type = "auto" ∧
        pyContainsCI k.incident_location (pyStrip (pyTake 40 c7Loc)) = true :=
  c7_typeloc_tier_characterization c7Db 5 "Jane" "Smith" "auto" c7Loc
    ⟨1, 5, "Jane", "Smith", 1⟩ (by decide) (by decide) (by decide) (by decide)

end Intake


/-! ## Preservation lemmas: which tables each pipeline stage can touch -/

namespace Intake

/-- A completed-or-failed write sequence is `.ok` exactly when it did not
fail. -/
theorem StepResult.eq_ok_of_not_failed :
    ∀ (r : StepResult), r.isFailed = false → r = .ok r.db
  | .ok _, _ => rfl
  | .failed _, h => by simp [StepResult.isFailed] at h

/-- Model of `_cite` writes citations and references only. -/
theorem citeWrite_clients_cases (cf : String → String → Bool)
    (rf : String → Bool) (comm : Option Nat) (key : String) (meta : CiteMeta)
    (obj : Option (String × Nat)) (label : String) (db : DB) :
    (citeWrite cf rf comm key meta obj label db).db.clients = db.clients ∧
    (citeWrite cf rf comm key meta obj label db).db.cases = db.cases := by
  unfold citeWrite
  split
  · exact ⟨rfl, rfl⟩
  · split
    · exact ⟨rfl, rfl⟩
    · split
      · exact ⟨rfl, rfl⟩
      · split
        · split
          · exact ⟨rfl, rfl⟩
          · exact ⟨rfl, rfl⟩
        · exact ⟨rfl, rfl⟩

/-- The other-parties loop body writes other parties and citations only. -/
theorem persistOneParty_clients_cases (cf : String → String → Bool)
    (rf : String → Bool) (comm : Option Nat) (caseId : Nat) (p : PartyDict)
    (db : DB) :
    (persistOneParty cf rf comm caseId p db).db.clients = db.clients ∧
    (persistOneParty cf rf comm caseId p db).db.cases = db.cases := by
  unfold persistOneParty
  split
  · exact ⟨rfl, rfl⟩
  · exact citeWrite_clients_cases cf rf comm "other_party" p.meta
      (some ("otherparty", db.nextId)) "at-fault party" _

/-- The treatment upsert writes treatments only. -/
theorem treatmentGetOrCreate_clients_cases (caseId providerId : Nat)
    (m : MedicalDict) (db : DB) :
    (treatmentGetOrCreate caseId providerId m db).clients = db.clients ∧
    (treatmentGetOrCreate caseId providerId m db).cases = db.cases := by
  unfold treatmentGetOrCreate
  split
  · exact ⟨rfl, rfl⟩
  · exact ⟨rfl, rfl⟩

/-- The facility upsert writes facilities only. -/
theorem facilityGetOrCreate_clients_cases (name : String) (db : DB) :
    (facilityGetOrCreate name db).2.clients = db.clients ∧
    (facilityGetOrCreate name db).2.cases = db.cases := by
  unfold facilityGetOrCreate
  split
  · exact ⟨rfl, rfl⟩
  · split
    · exact ⟨rfl, rfl⟩
    · exact ⟨rfl, rfl⟩

/-- The provider step writes providers, treatments and citations only. -/
theorem providerStep_clients_cases (cf : String → String → Bool)
    (rf : String → Bool) (comm : Option Nat) (caseId : Nat) (m : MedicalDict)
    (fac : Option Nat) (db : DB) :
    (providerStep cf rf comm caseId m fac db).db.clients = db.clients ∧
    (providerStep cf rf comm caseId m fac db).db.cases = db.cases := by
  unfold providerStep
  split
  next pr _ =>
    exact treatmentGetOrCreate_clients_cases caseId pr.id m db
  next _ =>
    have hcw := citeWrite_clients_cases cf rf comm "medical_provider" m.meta
      (some ("medicalprovider", db.nextId)) "treating provider"
      { db with
        nextId := db.nextId + 1
        providers := db.providers ++
          [⟨db.nextId, m.first_name, m.last_name, fac, m.specialty⟩] }
    split
    next d heq =>
      rw [heq] at hcw
      exact hcw
    next d2 heq =>
      rw [heq] at hcw
      have ht := treatmentGetOrCreate_clients_cases caseId db.nextId m d2
      exact ⟨ht.1.trans hcw.1, ht.2.trans hcw.2⟩

/-- The medical loop body writes facilities, providers, treatments and
citations only. -/
theorem persistOneMedical_clients_cases (cf : String → String → Bool)
    (rf : String → Bool) (comm : Option Nat) (caseId : Nat) (m : MedicalDict)
    (db : DB) :
    (persistOneMedical cf rf comm caseId m db).db.clients = db.clients ∧
    (persistOneMedical cf rf comm caseId m db).db.cases = db.cases := by
  unfold persistOneMedical
  have hfac := facilityGetOrCreate_clients_cases m.facility_name db
  have hps := providerStep_clients_cases cf rf comm caseId m
    (facilityGetOrCreate m.facility_name db).1
    (facilityGetOrCreate m.facility_name db).2
  exact ⟨hps.1.trans hfac.1, hps.2.trans hfac.2⟩

/-- The damages loop body writes damages and citations only. -/
theorem persistOneDamage_clients_cases (cf : String → String → Bool)
    (rf : String → Bool) (comm : Option Nat) (caseId : Nat) (d : DamageDict)
    (db : DB) :
    (persistOneDamage cf rf comm caseId d db).db.clients = db.clients ∧
    (persistOneDamage cf rf comm caseId d db).db.cases = db.cases := by
  unfold persistOneDamage
  split
  · exact ⟨rfl, rfl⟩
  · exact citeWrite_clients_cases cf rf comm "financial_expense" d.meta none "" _

/-- A loop whose body leaves clients and cases untouched leaves them
untouched. -/
theorem persistList_clients_cases {α : Type} (step : α → DB → StepResult)
    (hstep : ∀ x db, (step x db).db.clients = db.clients ∧
      (step x db).db.cases = db.cases) :
    ∀ (xs : List α) (db : DB),
      (persistList step xs db).db.clients = db.clients ∧
      (persistList step xs db).db.cases = db.cases := by
  intro xs
  induction xs with
  | nil => intro db; exact ⟨rfl, rfl⟩
  | cons x tl ih =>
      intro db
      unfold persistList
      split
      next d hs =>
        have h1 := hstep x db
        rw [hs] at h1
        exact h1
      next d hs =>
        have h1 := hstep x db
        rw [hs] at h1
        have h2 := ih d
        exact ⟨h2.1.trans h1.1, h2.2.trans h1.2⟩

/-- Model of `persist` never creates or deletes clients, and never changes the number
of cases (it can only fill blank incident fields of the target case row). -/
theorem persistRun_clients_cases (cf : String → String → Bool)
    (rf : String → Bool) (caseId : Nat) (res : IntakeExtractionResult)
    (comm : Option Nat) (db : DB) :
    (persistRun cf rf caseId res comm db).db.clients = db.clients ∧
    (persistRun cf rf caseId res comm db).db.cases.length = db.cases.length := by
  have hupd : (updateCaseFields caseId res db).clients = db.clients ∧
      (updateCaseFields caseId res db).cases.length = db.cases.length :=
    ⟨rfl, List.length_map _ _⟩
  unfold persistRun
  have hp := persistList_clients_cases (persistOneParty cf rf comm caseId)
    (fun x d => persistOneParty_clients_cases cf rf comm caseId x d)
    res.other_parties (updateCaseFields caseId res db)
  split
  next d1 h1 =>
    rw [h1] at hp
    exact ⟨hp.1.trans hupd.1, (congrArg List.length hp.2).trans hupd.2⟩
  next d1 h1 =>
    rw [h1] at hp
    have hm := persistList_clients_cases (persistOneMedical cf rf comm caseId)
      (fun x d => persistOneMedical_clients_cases cf rf comm caseId x d)
      res.medical_providers d1
    split
    next d2 h2 =>
      rw [h2] at hm
      exact ⟨hm.1.trans (hp.1.trans hupd.1),
        (congrArg List.length hm.2).trans
          ((congrArg List.length hp.2).trans hupd.2)⟩
    next d2 h2 =>
      rw [h2] at hm
      have hd := persistList_clients_cases (persistOneDamage cf rf comm caseId)
        (fun x d => persistOneDamage_clients_cases cf rf comm caseId x d)
        res.damages d2
      exact ⟨hd.1.trans (hm.1.trans (hp.1.trans hupd.1)),
        (congrArg List.length hd.2).trans
          ((congrArg List.length hm.2).trans
            ((congrArg List.length hp.2).trans hupd.2))⟩

end Intake

/-! ## With a storage layer that does not raise, every write step completes -/

namespace Intake

/-- Model of `_cite` completes when neither store raises. -/
theorem citeWrite_nofail_general (cf : String → String → Bool)
    (rf : String → Bool) (hcf : ∀ a b, cf a b = false)
    (hrf : ∀ a, rf a = false) (comm : Option Nat) (key : String)
    (meta : CiteMeta) (obj : Option (String × Nat)) (label : String)
    (db : DB) :
    (citeWrite cf rf comm key meta obj label db).isFailed = false := by
  unfold citeWrite
  split
  · rfl
  · split
    next h => rw [hcf] at h; exact absurd h (by simp)
    next h =>
      split
      · rfl
      · split
        · split
          next h2 => rw [hrf] at h2; exact absurd h2 (by simp)
          next h2 => rfl
        · rfl

/-- Model of `_cite` completes for the never-raising stores. -/
theorem citeWrite_nofail (comm : Option Nat) (key : String) (meta : CiteMeta)
    (obj : Option (String × Nat)) (label : String) (db : DB) :
    (citeWrite (fun _ _ => false) (fun _ => false) comm key meta obj label
      db).isFailed = false :=
  citeWrite_nofail_general _ _ (fun _ _ => rfl) (fun _ => rfl) comm key meta
    obj label db

/-- The other-parties loop body completes when the stores do not raise. -/
theorem persistOneParty_nofail (comm : Option Nat) (caseId : Nat)
    (p : PartyDict) (db : DB) :
    (persistOneParty (fun _ _ => false) (fun _ => false) comm caseId p
      db).isFailed = false := by
  unfold persistOneParty
  split
  · rfl
  · exact citeWrite_nofail comm "other_party" p.meta
      (some ("otherparty", db.nextId)) "at-fault party" _

/-- The provider step completes when the stores do not raise. -/
theorem providerStep_nofail (comm : Option Nat) (caseId : Nat)
    (m : MedicalDict) (fac : Option Nat) (db : DB) :
    (providerStep (fun _ _ => false) (fun _ => false) comm caseId m fac
      db).isFailed = false := by
  unfold providerStep
  split
  · rfl
  · have h := citeWrite_nofail comm "medical_provider" m.meta
      (some ("medicalprovider", db.nextId)) "treating provider"
      { db with
        nextId := db.nextId + 1
        providers := db.providers ++
          [⟨db.nextId, m.first_name, m.last_name, fac, m.specialty⟩] }
    split
    next d heq =>
      rw [heq] at h
      simp [StepResult.isFailed] at h
    next d2 heq => rfl

/-- The medical loop body completes when the stores do not raise. -/
theorem persistOneMedical_nofail (comm : Option Nat) (caseId : Nat)
    (m : MedicalDict) (db : DB) :
    (persistOneMedical (fun _ _ => false) (fun _ => false) comm caseId m
      db).isFailed = false := by
  unfold persistOneMedical
  exact providerStep_nofail comm caseId m _ _

/-- The damages loop body completes when the stores do not raise. -/
theorem persistOneDamage_nofail (comm : Option Nat) (caseId : Nat)
    (d : DamageDict) (db : DB) :
    (persistOneDamage (fun _ _ => false) (fun _ => false) comm caseId d
      db).isFailed = false := by
  unfold persistOneDamage
  split
  · rfl
  · exact citeWrite_nofail comm "financial_expense" d.meta none "" _

/-- A loop whose body always completes completes. -/
theorem persistList_nofail {α : Type} (step : α → DB → StepResult)
    (hstep : ∀ x db, (step x db).isFailed = false) :
    ∀ (xs : List α) (db : DB), (persistList step xs db).isFailed = false := by
  intro xs
  induction xs with
  | nil => intro db; rfl
  | cons x tl ih =>
      intro db
      unfold persistList
      split
      next d hs =>
        have h1 := hstep x db
        rw [hs] at h1
        simp [StepResult.isFailed] at h1
      next d hs => exact ih d

/-- Model of `persist` completes when the citation stores do not raise. -/
theorem persistRun_nofail (caseId : Nat) (res : IntakeExtractionResult)
    (comm : Option Nat) (db : DB) :
    (persistRun (fun _ _ => false) (fun _ => false) caseId res comm
      db).isFailed = false := by
  unfold persistRun
  split
  next d1 h1 =>
    have h := persistList_nofail _
      (fun x d => persistOneParty_nofail comm caseId x d) res.other_parties
      (updateCaseFields caseId res db)
    rw [h1] at h
    simp [StepResult.isFailed] at h
  next d1 h1 =>
    split
    next d2 h2 =>
      have h := persistList_nofail _
        (fun x d => persistOneMedical_nofail comm caseId x d)
        res.medical_providers d1
      rw [h2] at h
      simp [StepResult.isFailed] at h
    next d2 h2 =>
      exact persistList_nofail _
        (fun x d => persistOneDamage_nofail comm caseId x d) res.damages d2

/-- Model of `_cite_meta` completes when the stores do not raise. -/
theorem citeMetaFinding_nofail (commId : Nat) (key : String)
    (f? : Option Finding) (obj : Option (String × Nat)) (label : String)
    (db : DB) :
    (citeMetaFinding (fun _ _ => false) (fun _ => false) commId key f? obj
      label db).isFailed = false := by
  unfold citeMetaFinding
  rcases f? with _ | f
  · rfl
  · exact citeWrite_nofail (some commId) key (metaFindingCite f) obj label db

/-- Model of `_write_metadata_citations` completes when the stores do not raise. -/
theorem writeMetaCitations_nofail (commId : Nat) (fs : List Finding)
    (clientId : Nat) (db : DB) :
    (writeMetaCitations (fun _ _ => false) (fun _ => false) commId fs clientId
      db).isFailed = false := by
  unfold writeMetaCitations
  split
  next d h1 =>
    have h := citeMetaFinding_nofail commId "caller_name"
      (metaGet fs "caller_name") (some ("client", clientId))
      "identified caller" db
    rw [h1] at h
    simp [StepResult.isFailed] at h
  next d1 h1 =>
    split
    next d h2 =>
      have h := citeMetaFinding_nofail commId "accident_date"
        (metaGet fs "accident_date") none "" d1
      rw [h2] at h
      simp [StepResult.isFailed] at h
    next d2 h2 =>
      split
      next d h3 =>
        have h := citeMetaFinding_nofail commId "case_type"
          (metaGet fs "case_type") none "" d2
        rw [h3] at h
        simp [StepResult.isFailed] at h
      next d3 h3 =>
        exact citeMetaFinding_nofail commId "incident_location"
          (metaGet fs "incident_location") none "" d3

/-- Model of `_write_metadata_citations` writes citations and references only. -/
theorem writeMetaCitations_clients_cases (cf : String → String → Bool)
    (rf : String → Bool) (commId : Nat) (fs : List Finding) (clientId : Nat)
    (db : DB) :
    (writeMetaCitations cf rf commId fs clientId db).db.clients = db.clients ∧
    (writeMetaCitations cf rf commId fs clientId db).db.cases = db.cases := by
  have hone : ∀ (key : String) (f? : Option Finding)
      (obj : Option (String × Nat)) (label : String) (d : DB),
      (citeMetaFinding cf rf commId key f? obj label d).db.clients = d.clients ∧
      (citeMetaFinding cf rf commId key f? obj label d).db.cases = d.cases := by
    intro key f? obj label d
    unfold citeMetaFinding
    rcases f? with _ | f
    · exact ⟨rfl, rfl⟩
    · exact citeWrite_clients_cases cf rf (some commId) key
        (metaFindingCite f) obj label d
  unfold writeMetaCitations
  split
  next d h1 =>
    have h := hone "caller_name" (metaGet fs "caller_name")
      (some ("client", clientId)) "identified caller" db
    rw [h1] at h
    exact h
  next d1 h1 =>
    have ha := hone "caller_name" (metaGet fs "caller_name")
      (some ("client", clientId)) "identified caller" db
    rw [h1] at ha
    split
    next d h2 =>
      have h := hone "accident_date" (metaGet fs "accident_date") none "" d1
      rw [h2] at h
      exact ⟨h.1.trans ha.1, h.2.trans ha.2⟩
    next d2 h2 =>
      have hb := hone "accident_date" (metaGet fs "accident_date") none "" d1
      rw [h2] at hb
      split
      next d h3 =>
        have h := hone "case_type" (metaGet fs "case_type") none "" d2
        rw [h3] at h
        exact ⟨h.1.trans (hb.1.trans ha.1), h.2.trans (hb.2.trans ha.2)⟩
      next d3 h3 =>
        have hc := hone "case_type" (metaGet fs "case_type") none "" d2
        rw [h3] at hc
        have h := hone "incident_location" (metaGet fs "incident_location")
          none "" d3
        exact ⟨h.1.trans (hc.1.trans (hb.1.trans ha.1)),
               h.2.trans (hc.2.trans (hb.2.trans ha.2))⟩

/-- Law-firm resolution writes (at most) a law-firm row. -/
theorem resolveLawFirm_clients_cases (fs : List Finding) (lfid : Option Nat)
    (db : DB) (fid : Nat) (db' : DB)
    (h : resolveLawFirm fs lfid db = .ok (fid, db')) :
    db'.clients = db.clients ∧ db'.cases = db.cases := by
  unfold resolveLawFirm at h
  split at h
  · split at h
    · rw [Except.ok.injEq, Prod.mk.injEq] at h
      rw [← h.2]
      exact ⟨rfl, rfl⟩
    · exact absurd h (by simp)
  · split at h
    · rw [Except.ok.injEq, Prod.mk.injEq] at h
      rw [← h.2]
      exact ⟨rfl, rfl⟩
    · rw [Except.ok.injEq, Prod.mk.injEq] at h
      rw [← h.2]
      exact ⟨rfl, rfl⟩

end Intake

/-! ## Claim C5 — re-ingesting the same caller and incident -/

namespace Intake

/-- C5 (amended): Re-ingesting the same caller/incident details returns
`matched = true` and creates no second Client and no second Case *provided
the matcher can see the first ingest's records*: at the time of the second
ingest the most recently created client with the case-insensitively matching
name must own a case matching the supplied incident date (or the
type+location fallback).  New Client and Case records are created only when
the matcher finds no existing match. -/
theorem c5_reingest_reuses_records
    (pd : String → Option Int) (today : Int) (fs : List Finding)
    (lfid : Option Nat) (db : DB) (fid : Nat) (db1 : DB)
    (hfirm : resolveLawFirm fs lfid db = .ok (fid, db1))
    (c : Client) (k : Case)
    (hfind : findExistingCase db1 fid (callerNames fs).1 (callerNames fs).2
        (extractIncidentInfo pd fs).incident_type
        (extractIncidentInfo pd fs).incident_date
        (extractIncidentInfo pd fs).incident_location = some (c, k)) :
    (ingest pd today (fun _ _ => false) (fun _ => false) fs lfid db).map
        (fun o => (o.matched, o.db.clients.length, o.db.cases.length)) =
      .ok (true, db.clients.length, db.cases.length) := by
  have hcc := resolveLawFirm_clients_cases fs lfid db fid db1 hfirm
  have hpc := persistRun_clients_cases (fun _ _ => false) (fun _ => false)
    k.id (buildResult pd today fs) (some (commCreate c.id k.id db1).1.id)
    (commCreate c.id k.id db1).2
  have hok := StepResult.eq_ok_of_not_failed _
    (persistRun_nofail k.id (buildResult pd today fs)
      (some (commCreate c.id k.id db1).1.id) (commCreate c.id k.id db1).2)
  unfold ingest
  rw [hfirm]
  dsimp only
  rw [hfind]
  dsimp only
  rw [hok]
  simp only [Except.map, markCommDone, Except.ok.injEq, Prod.mk.injEq]
  refine ⟨trivial, ?_, ?_⟩
  · rw [congrArg List.length hpc.1]
    simp only [commCreate]
    rw [congrArg List.length hcc.1]
  · rw [hpc.2]
    simp only [commCreate]
    rw [congrArg List.length hcc.2]

end Intake

namespace Intake

/-- Model of `date.fromisoformat` stub for the C5 scenario: the transcript's one date. -/
def c5Pd : String → Option Int := fun s => if s = "2024-03-03" then some 100 else none

/-- The metadata findings the extractor returns for the C5 scenario (both
ingests receive exactly these). -/
def c5Findings : List Finding :=
  [⟨"metadata", "caller_name", "Jane Smith", some 0, "My name is Jane Smith.", "high"⟩,
   ⟨"metadata", "case_type", "auto_accident", some 1, "", "high"⟩,
   ⟨"metadata", "accident_date", "2024-03-03", some 2, "", "high"⟩,
   ⟨"metadata", "incident_location", "Main St", some 3, "", "high"⟩]

/-- A database holding two case-insensitively identical clients of the same
firm; the more recently created one (`JANE SMITH`, `createdAt = 2`) owns no
cases. -/
def c5Db : DB :=
  { lawFirms := [⟨7, "Firm"⟩]
    clients := [⟨1, 7, "Jane", "Smith", 1⟩, ⟨2, 7, "JANE", "SMITH", 2⟩]
    nextId := 3 }

/-- C5 counterexample: Ingesting the same caller (`Jane Smith`), same law
firm, same incident date and the same findings twice: the matcher resolves
the caller to the most recently created same-name client, which owns no
case, so *both* runs return `matched = false`, and the second run creates a
second Case (1 → 2) for the same caller and incident — falsifying
"returns matched=true and creates no second Client and no second Case". -/
theorem c5_counterexample :
    ((ingest c5Pd 100 (fun _ _ => false) (fun _ => false) c5Findings (some 7)
        c5Db).bind (fun o1 =>
      (ingest c5Pd 100 (fun _ _ => false) (fun _ => false) c5Findings (some 7)
          o1.db).map (fun o2 =>
        (o1.matched, o1.db.clients.length, o1.db.cases.length,
         o2.matched, o2.db.clients.length, o2.db.cases.length)))) =
      .ok (false, 2, 1, false, 2, 2) := by
  decide

/-- A database where the latest matching client owns a case with the
extracted incident date — the situation every first ingest on a
single-spelling client base leaves behind. -/
def c5DbMatched : DB :=
  { lawFirms := [⟨7, "Firm"⟩]
    clients := [⟨1, 7, "Jane", "Smith", 1⟩]
    cases := [⟨10, 1, "auto", some 100, "Main St"⟩]
    nextId := 11 }

/-- Witness for the amended C5 theorem at a concrete database. -/
theorem c5_reingest_witness :
    (ingest c5Pd 100 (fun _ _ => false) (fun _ => false) c5Findings (some 7)
        c5DbMatched).map
        (fun o => (o.matched, o.db.clients.length, o.db.cases.length)) =
      .ok (true, c5DbMatched.clients.length, c5DbMatched.cases.length) :=
  c5_reingest_reuses_records c5Pd 100 c5Findings (some 7) c5DbMatched 7
    c5DbMatched (by decide) ⟨1, 7, "Jane", "Smith", 1⟩
    ⟨10, 1, "auto", some 100, "Main St"⟩ (by decide)

end Intake

/-! ## Claim C10 — the derived caller identity and its uses -/

namespace Intake

/-- Splitting at the first space of `A ++ ' ' :: B` when `A` is space-free. -/
theorem splitOnceChar_append (B : List Char) :
    ∀ (A : List Char), (∀ ch ∈ A, ch ≠ ' ') →
      splitOnceChar ' ' (A ++ ' ' :: B) = some (A, B) := by
  intro A
  induction A with
  | nil => intro _; simp [splitOnceChar]
  | cons c tl ih =>
      intro hA
      have hc : ¬ c = ' ' := hA c (List.mem_cons_self c tl)
      have := ih (fun ch hch => hA ch (List.mem_cons_of_mem c hch))
      simp only [List.cons_append, splitOnceChar, hc, if_false]
      rw [List.append_eq, this]
      rfl

/-- A space-free list has no first space. -/
theorem splitOnceChar_none :
    ∀ (A : List Char), (∀ ch ∈ A, ch ≠ ' ') → splitOnceChar ' ' A = none := by
  intro A
  induction A with
  | nil => intro _; rfl
  | cons c tl ih =>
      intro hA
      have hc : ¬ c = ' ' := hA c (List.mem_cons_self c tl)
      have := ih (fun ch hch => hA ch (List.mem_cons_of_mem c hch))
      simp [splitOnceChar, hc, this]

/-- The most recently created client comes from the candidate list. -/
theorem latestClient_mem : ∀ (l : List Client) (c : Client),
    latestClient l = some c → c ∈ l := by
  intro l
  induction l with
  | nil => intro c h; exact absurd h (by simp [latestClient])
  | cons a tl ih =>
      intro c h
      unfold latestClient at h
      split at h
      next =>
        rw [Option.some.injEq] at h
        rw [← h]
        exact List.mem_cons_self a tl
      next b hb =>
        split at h
        · rw [Option.some.injEq] at h
          rw [← h]
          exact List.mem_cons_self a tl
        · rw [Option.some.injEq] at h
          rw [← h]
          exact List.mem_cons_of_mem a (ih b hb)

/-- A matched client always comes from the case-insensitive name queryset —
the derived name pair is the natural key of the match. -/
theorem findExistingCase_client_mem (db : DB) (firmId : Nat) (fn ln : String)
    (itype : Option String) (idate : Option Int) (iloc : Option String)
    (c : Client) (k : Case)
    (h : findExistingCase db firmId fn ln itype idate iloc = some (c, k)) :
    c ∈ clientsOf db firmId fn ln := by
  unfold findExistingCase at h
  split at h
  next => exact absurd h (by simp)
  next c0 hc0 =>
    have hmem := latestClient_mem _ _ hc0
    split at h
    · exact absurd h (by simp)
    · split at h
      next k0 hk0 =>
        rw [Option.some.injEq, Prod.mk.injEq] at h
        rw [← h.1]
        exact hmem
      next hk0 =>
        split at h
        next k0 hk0' =>
          rw [Option.some.injEq, Prod.mk.injEq] at h
          rw [← h.1]
          exact hmem
        next => exact absurd h (by simp)

/-- Model of `Client.objects.get_or_create` returns a row carrying exactly the derived
first/last name, and that row is in the resulting clients table. -/
theorem clientGetOrCreate_spec (firmId : Nat) (fn ln : String) (db : DB) :
    (clientGetOrCreate firmId fn ln db).1 ∈
      (clientGetOrCreate firmId fn ln db).2.clients ∧
    (clientGetOrCreate firmId fn ln db).1.first_name = fn ∧
    (clientGetOrCreate firmId fn ln db).1.last_name = ln := by
  unfold clientGetOrCreate
  split
  next c hc =>
    have hp := List.find?_some hc
    simp only [Bool.and_eq_true, beq_iff_eq] at hp
    exact ⟨List.mem_of_find?_eq_some hc, hp.1.2, hp.2⟩
  next hc =>
    refine ⟨?_, rfl, rfl⟩
    simp

end Intake

namespace Intake

/-- No-match branch of `ingest`: the client attached to the new case carries
exactly the derived caller-name pair, and is the returned `clientId`. -/
theorem ingest_nomatch_spec (pd : String → Option Int) (today : Int)
    (fs : List Finding) (lfid : Option Nat) (db : DB) (fid : Nat) (db1 : DB)
    (out : IngestOut)
    (hfirm : resolveLawFirm fs lfid db = .ok (fid, db1))
    (hfind : findExistingCase db1 fid (callerNames fs).1 (callerNames fs).2
        (extractIncidentInfo pd fs).incident_type
        (extractIncidentInfo pd fs).incident_date
        (extractIncidentInfo pd fs).incident_location = none)
    (hrun : ingest pd today (fun _ _ => false) (fun _ => false) fs lfid db =
      .ok out) :
    out.matched = false ∧
    ∃ c ∈ out.db.clients, c.id = out.clientId ∧
      c.first_name = (callerNames fs).1 ∧ c.last_name = (callerNames fs).2 := by
  unfold ingest at hrun
  rw [hfirm] at hrun
  dsimp only at hrun
  rw [hfind] at hrun
  dsimp only at hrun
  have hwm := StepResult.eq_ok_of_not_failed _
    (writeMetaCitations_nofail
      (commCreate (clientGetOrCreate fid (callerNames fs).1 (callerNames fs).2 db1).1.id
        (caseCreate (clientGetOrCreate fid (callerNames fs).1 (callerNames fs).2 db1).1.id
          (extractIncidentInfo pd fs)
          (clientGetOrCreate fid (callerNames fs).1 (callerNames fs).2 db1).2).1.id
        (caseCreate (clientGetOrCreate fid (callerNames fs).1 (callerNames fs).2 db1).1.id
          (extractIncidentInfo pd fs)
          (clientGetOrCreate fid (callerNames fs).1 (callerNames fs).2 db1).2).2).1.id
      fs
      (clientGetOrCreate fid (callerNames fs).1 (callerNames fs).2 db1).1.id
      (commCreate (clientGetOrCreate fid (callerNames fs).1 (callerNames fs).2 db1).1.id
        (caseCreate (clientGetOrCreate fid (callerNames fs).1 (callerNames fs).2 db1).1.id
          (extractIncidentInfo pd fs)
          (clientGetOrCreate fid (callerNames fs).1 (callerNames fs).2 db1).2).1.id
        (caseCreate (clientGetOrCreate fid (callerNames fs).1 (callerNames fs).2 db1).1.id
          (extractIncidentInfo pd fs)
          (clientGetOrCreate fid (callerNames fs).1 (callerNames fs).2 db1).2).2).2)
  rw [hwm] at hrun
  dsimp only at hrun
  rw [StepResult.eq_ok_of_not_failed _ (persistRun_nofail _ _ _ _)] at hrun
  dsimp only at hrun
  rw [Except.ok.injEq] at hrun
  have hspec := clientGetOrCreate_spec fid (callerNames fs).1
    (callerNames fs).2 db1
  refine ⟨by rw [← hrun], ?_⟩
  refine ⟨(clientGetOrCreate fid (callerNames fs).1 (callerNames fs).2 db1).1,
    ?_, by rw [← hrun], hspec.2.1, hspec.2.2⟩
  rw [← hrun]
  show (clientGetOrCreate fid (callerNames fs).1 (callerNames fs).2 db1).1 ∈
    (persistRun (fun _ _ => false) (fun _ => false) _ _ _ _).db.clients
  rw [(persistRun_clients_cases _ _ _ _ _ _).1,
    (writeMetaCitations_clients_cases _ _ _ _ _ _).1]
  exact hspec.1

/-- Matched branch of `ingest`: the returned client is the one the matcher
found, and the matcher found it inside the case-insensitive name queryset of
the derived caller-name pair. -/
theorem ingest_match_client_key (pd : String → Option Int) (today : Int)
    (fs : List Finding) (lfid : Option Nat) (db : DB) (fid : Nat) (db1 : DB)
    (c : Client) (k : Case) (out : IngestOut)
    (hfirm : resolveLawFirm fs lfid db = .ok (fid, db1))
    (hfind : findExistingCase db1 fid (callerNames fs).1 (callerNames fs).2
        (extractIncidentInfo pd fs).incident_type
        (extractIncidentInfo pd fs).incident_date
        (extractIncidentInfo pd fs).incident_location = some (c, k))
    (hrun : ingest pd today (fun _ _ => false) (fun _ => false) fs lfid db =
      .ok out) :
    out.clientId = c.id ∧
    c ∈ clientsOf db1 fid (callerNames fs).1 (callerNames fs).2 := by
  have hmem := findExistingCase_client_mem db1 fid (callerNames fs).1
    (callerNames fs).2 (extractIncidentInfo pd fs).incident_type
    (extractIncidentInfo pd fs).incident_date
    (extractIncidentInfo pd fs).incident_location c k hfind
  unfold ingest at hrun
  rw [hfirm] at hrun
  dsimp only at hrun
  rw [hfind] at hrun
  dsimp only at hrun
  rw [StepResult.eq_ok_of_not_failed _ (persistRun_nofail _ _ _ _)] at hrun
  dsimp only at hrun
  rw [Except.ok.injEq] at hrun
  exact ⟨by rw [← hrun], hmem⟩

end Intake

namespace Intake

/-- C10: The caller identity derived from the `caller_name` metadata
finding splits only on the first space — a two-part name gives
`(first token, remainder)` and a space-free name gives `("", whole name)` —
and `ingest` uses exactly this derived pair both as the client natural key
for matching (the matched client always lies in the case-insensitive queryset
of that pair) and for any new Client row created on the no-match path. -/
theorem c10_caller_identity_split_and_use :
    (∀ s a b, pyStrip s = a ++ " " ++ b → (∀ ch ∈ a.data, ch ≠ ' ') →
        splitCallerName s = (a, b)) ∧
    (∀ s, (∀ ch ∈ (pyStrip s).data, ch ≠ ' ') →
        splitCallerName s = ("", pyStrip s)) ∧
    (∀ (pd : String → Option Int) (today : Int) (fs : List Finding)
        (lfid : Option Nat) (db : DB) (fid : Nat) (db1 : DB) (out : IngestOut),
        resolveLawFirm fs lfid db = .ok (fid, db1) →
        findExistingCase db1 fid (callerNames fs).1 (callerNames fs).2
          (extractIncidentInfo pd fs).incident_type
          (extractIncidentInfo pd fs).incident_date
          (extractIncidentInfo pd fs).incident_location = none →
        ingest pd today (fun _ _ => false) (fun _ => false) fs lfid db =
          .ok out →
        out.matched = false ∧
        ∃ c ∈ out.db.clients, c.id = out.clientId ∧
          c.first_name = (callerNames fs).1 ∧
          c.last_name = (callerNames fs).2) ∧
    (∀ (pd : String → Option Int) (today : Int) (fs : List Finding)
        (lfid : Option Nat) (db : DB) (fid : Nat) (db1 : DB) (c : Client)
        (k : Case) (out : IngestOut),
        resolveLawFirm fs lfid db = .ok (fid, db1) →
        findExistingCase db1 fid (callerNames fs).1 (callerNames fs).2
          (extractIncidentInfo pd fs).incident_type
          (extractIncidentInfo pd fs).incident_date
          (extractIncidentInfo pd fs).incident_location = some (c, k) →
        ingest pd today (fun _ _ => false) (fun _ => false) fs lfid db =
          .ok out →
        out.clientId = c.id ∧
        c ∈ clientsOf db1 fid (callerNames fs).1 (callerNames fs).2) := by
  refine ⟨?_, ?_, ?_, ?_⟩
  · intro s a b h1 h2
    show (match splitOnceChar ' ' (pyStrip s).data with
          | none => ("", pyStrip s)
          | some p => (String.mk p.1, String.mk p.2)) = (a, b)
    rw [h1]
    have hs : splitOnceChar ' ' (a ++ " " ++ b).data = some (a.data, b.data) := by
      have h3 := splitOnceChar_append b.data a.data h2
      rw [String.data_append, String.data_append,
        show " ".data = [' '] from rfl, List.append_assoc,
        List.singleton_append]
      exact h3
    rw [hs]
  · intro s h
    show (match splitOnceChar ' ' (pyStrip s).data with
          | none => ("", pyStrip s)
          | some p => (String.mk p.1, String.mk p.2)) = ("", pyStrip s)
    rw [splitOnceChar_none (pyStrip s).data h]
  · intro pd today fs lfid db fid db1 out hfirm hfind hrun
    exact ingest_nomatch_spec pd today fs lfid db fid db1 out hfirm hfind hrun
  · intro pd today fs lfid db fid db1 c k out hfirm hfind hrun
    exact ingest_match_client_key pd today fs lfid db fid db1 c k out hfirm
      hfind hrun

end Intake

namespace Intake

/-- Project a known-successful ingest outcome (fallback for the error case). -/
def ingestOutOr (e : Except IngestErr IngestOut) (d : IngestOut) : IngestOut :=
  match e with
  | .ok o => o
  | .error _ => d

/-- An inert default outcome. -/
def emptyOut : IngestOut := ⟨false, 0, 0, 0, 0, {}, {}⟩

/-- A database with the law firm but no clients: the no-match path. -/
def c10NoMatchDb : DB := { lawFirms := [⟨7, "Firm"⟩] }

/-- Witness for C10: the two split shapes at concrete names, the no-match
ingest creating a client named by the derived pair, and the matched ingest
returning the client found under the derived natural key. -/
theorem c10_caller_identity_witness :
    splitCallerName "Jane Smith" = ("Jane", "Smith") ∧
    splitCallerName "Cher" = ("", pyStrip "Cher") ∧
    ((ingestOutOr (ingest c5Pd 100 (fun _ _ => false) (fun _ => false)
          c5Findings (some 7) c10NoMatchDb) emptyOut).matched = false ∧
      ∃ c ∈ (ingestOutOr (ingest c5Pd 100 (fun _ _ => false) (fun _ => false)
          c5Findings (some 7) c10NoMatchDb) emptyOut).db.clients,
        c.id = (ingestOutOr (ingest c5Pd 100 (fun _ _ => false) (fun _ => false)
          c5Findings (some 7) c10NoMatchDb) emptyOut).clientId ∧
        c.first_name = (callerNames c5Findings).1 ∧
        c.last_name = (callerNames c5Findings).2) ∧
    ((ingestOutOr (ingest c5Pd 100 (fun _ _ => false) (fun _ => false)
          c5Findings (some 7) c5DbMatched) emptyOut).clientId =
        (⟨1, 7, "Jane", "Smith", 1⟩ : Client).id ∧
      (⟨1, 7, "Jane", "Smith", 1⟩ : Client) ∈
        clientsOf c5DbMatched 7 (callerNames c5Findings).1
          (callerNames c5Findings).2) := by
  obtain ⟨h1, h2, h3, h4⟩ := c10_caller_identity_split_and_use
  refine ⟨h1 "Jane Smith" "Jane" "Smith" (by decide) (by decide),
    h2 "Cher" (by decide), ?_, ?_⟩
  · exact h3 c5Pd 100 c5Findings (some 7) c10NoMatchDb 7 c10NoMatchDb _
      (by decide) (by decide) (by decide)
  · exact h4 c5Pd 100 c5Findings (some 7) c5DbMatched 7 c5DbMatched
      ⟨1, 7, "Jane", "Smith", 1⟩ ⟨10, 1, "auto", some 100, "Main St"⟩ _
      (by decide) (by decide) (by decide)

end Intake
